import Mathlib

/-!
Verification of the call-orchestration webhook server
(`personal-agent-webhook`, main variant `src/unnamed/part_001`, v3.6.1).

The JavaScript handlers are embedded shallowly as pure Lean functions over an
explicit server state.  Remote side effects (Telnyx API calls, Cortex
notifications) are recorded as an ordered list of `Action`s; their results are
supplied by an `Env` record, one per handler invocation, so that theorems
quantify over every possible outcome of the remote calls.  JavaScript `Map`s
are modelled as association lists whose keys are unique in every reachable
state; timestamps (`Date.now()`, ISO strings) are modelled as natural-number
milliseconds.
-/

namespace PersonalAgentWebhook

/-! ## Client-State Codec

`dialElevenLabsSIP` encodes `{type:"ai_leg", conferenceId, callerFrom}` with
`Buffer.from(JSON.stringify(...)).toString("base64")`; `handleCallAnswered`
decodes with `JSON.parse(Buffer.from(b64, "base64").toString())`.  We model
the full pipeline: JSON serialisation of a flat string-valued object (the only
shape either side produces), UTF-8 byte encoding, and standard base64. -/

/-- Base64 alphabet used by `Buffer.toString("base64")`. -/
def b64Alphabet : List Char :=
  "ABCDEFGHIJKLMNOPQRSTUVWXYZabcdefghijklmnopqrstuvwxyz0123456789+/".toList

/-- Character for a 6-bit group. -/
def b64EncChar (n : Nat) : Char := b64Alphabet.getD n 'A'

/-- Index of a base64 character, `none` for padding or foreign characters. -/
def b64DecChar (c : Char) : Option Nat := b64Alphabet.findIdx? (fun a => a == c)

/-- Base64 encoding of a byte list (bytes as `Nat < 256`), with `=` padding,
as produced by `Buffer.toString("base64")`. -/
def base64Encode : List Nat → List Char
  | [] => []
  | [b0] => [b64EncChar (b0 / 4), b64EncChar (b0 % 4 * 16), '=', '=']
  | [b0, b1] => [b64EncChar (b0 / 4), b64EncChar (b0 % 4 * 16 + b1 / 16),
      b64EncChar (b1 % 16 * 4), '=']
  | b0 :: b1 :: b2 :: rest =>
      b64EncChar (b0 / 4) :: b64EncChar (b0 % 4 * 16 + b1 / 16) ::
      b64EncChar (b1 % 16 * 4 + b2 / 64) :: b64EncChar (b2 % 64) :: base64Encode rest

/-- Base64 decoding, inverse of `base64Encode` on its image. -/
def base64Decode : List Char → Option (List Nat)
  | [] => some []
  | c0 :: c1 :: c2 :: c3 :: rest =>
    match b64DecChar c0, b64DecChar c1 with
    | some n0, some n1 =>
      match b64DecChar c2 with
      | none =>
        if c2 = '=' ∧ c3 = '=' ∧ rest = [] then some [n0 * 4 + n1 / 16] else none
      | some n2 =>
        match b64DecChar c3 with
        | none =>
          if c3 = '=' ∧ rest = [] then
            some [n0 * 4 + n1 / 16, n1 % 16 * 16 + n2 / 4]
          else none
        | some n3 =>
          (base64Decode rest).map
            (fun bs => (n0 * 4 + n1 / 16) :: (n1 % 16 * 16 + n2 / 4) :: (n2 % 4 * 64 + n3) :: bs)
    | _, _ => none
  | _ => none

/-- UTF-8 bytes of one Unicode scalar value (what `Buffer.from(string)` emits
per character). -/
def utf8EncodeChar (c : Char) : List Nat :=
  let n := c.toNat
  if n < 0x80 then [n]
  else if n < 0x800 then [0xC0 + n / 64, 0x80 + n % 64]
  else if n < 0x10000 then
    [0xE0 + n / 4096, 0x80 + n / 64 % 64, 0x80 + n % 64]
  else
    [0xF0 + n / 262144, 0x80 + n / 4096 % 64, 0x80 + n / 64 % 64, 0x80 + n % 64]

/-- UTF-8 byte encoding of a character list. -/
def utf8Encode : List Char → List Nat
  | [] => []
  | c :: t => utf8EncodeChar c ++ utf8Encode t

/-- A character from a code point, `none` when the code point is not a valid
Unicode scalar value. -/
def mkChar (n : Nat) : Option Char :=
  if n.isValidChar then some (Char.ofNat n) else none

/-- Continuation-byte test for UTF-8 decoding. -/
def isCont (b : Nat) : Bool := decide (0x80 ≤ b) && decide (b < 0xC0)

/-- Decode the tail of a two-byte UTF-8 sequence with lead byte `b`,
continuing with `k` on the remaining input. -/
def utf8Decode2 (k : List Nat → Option (List Char)) (b : Nat) :
    List Nat → Option (List Char)
  | b1 :: rest =>
    if isCont b1 then
      (mkChar ((b - 0xC0) * 64 + (b1 - 0x80))).bind fun c =>
        (k rest).map (fun t => c :: t)
    else none
  | [] => none

/-- Decode the tail of a three-byte UTF-8 sequence with lead byte `b`. -/
def utf8Decode3 (k : List Nat → Option (List Char)) (b : Nat) :
    List Nat → Option (List Char)
  | b1 :: b2 :: rest =>
    if isCont b1 && isCont b2 then
      (mkChar ((b - 0xE0) * 4096 + (b1 - 0x80) * 64 + (b2 - 0x80))).bind fun c =>
        (k rest).map (fun t => c :: t)
    else none
  | _ => none

/-- Decode the tail of a four-byte UTF-8 sequence with lead byte `b`. -/
def utf8Decode4 (k : List Nat → Option (List Char)) (b : Nat) :
    List Nat → Option (List Char)
  | b1 :: b2 :: b3 :: rest =>
    if isCont b1 && isCont b2 && isCont b3 then
      (mkChar ((b - 0xF0) * 262144 + (b1 - 0x80) * 4096 +
          (b2 - 0x80) * 64 + (b3 - 0x80))).bind fun c =>
        (k rest).map (fun t => c :: t)
    else none
  | _ => none

/-- UTF-8 decoding worker; the fuel argument only bounds the recursion depth
(one unit per decoded character) and never cuts off an input decoded with
fuel at least the byte count. -/
def utf8DecodeAux : Nat → List Nat → Option (List Char)
  | _, [] => some []
  | 0, _ :: _ => none
  | fuel + 1, b :: rest =>
    if b < 0x80 then
      (mkChar b).bind fun c => (utf8DecodeAux fuel rest).map (fun t => c :: t)
    else if b < 0xC0 then none
    else if b < 0xE0 then utf8Decode2 (utf8DecodeAux fuel) b rest
    else if b < 0xF0 then utf8Decode3 (utf8DecodeAux fuel) b rest
    else if b < 0xF8 then utf8Decode4 (utf8DecodeAux fuel) b rest
    else none

/-- UTF-8 decoding (what `Buffer.toString()` performs), inverse of
`utf8Encode` on its image. -/
def utf8Decode (bs : List Nat) : Option (List Char) :=
  utf8DecodeAux bs.length bs

/-- Lowercase hexadecimal digit, as emitted by `JSON.stringify` in
control-character escapes. -/
def hexDigit (n : Nat) : Char := "0123456789abcdef".toList.getD n '0'

/-- Value of one hexadecimal digit (either case), as accepted by
`JSON.parse`. -/
def hexVal (c : Char) : Option Nat :=
  let n := c.toNat
  if 48 ≤ n ∧ n ≤ 57 then some (n - 48)
  else if 97 ≤ n ∧ n ≤ 102 then some (n - 87)
  else if 65 ≤ n ∧ n ≤ 70 then some (n - 55)
  else none

/-- JSON string escaping of one character, following `JSON.stringify`:
quote, backslash and control characters are escaped, everything else is
emitted literally. -/
def jsonEscapeChar (c : Char) : List Char :=
  if c = '\"' then ['\\', '\"']
  else if c = '\\' then ['\\', '\\']
  else if c = '\n' then ['\\', 'n']
  else if c = '\r' then ['\\', 'r']
  else if c = '\t' then ['\\', 't']
  else if c.toNat = 8 then ['\\', 'b']
  else if c.toNat = 12 then ['\\', 'f']
  else if c.toNat < 32 then
    ['\\', 'u', '0', '0', hexDigit (c.toNat / 16), hexDigit (c.toNat % 16)]
  else [c]

/-- JSON string escaping of a character list. -/
def jsonEscape : List Char → List Char
  | [] => []
  | c :: t => jsonEscapeChar c ++ jsonEscape t

/-- Meaning of a single-character JSON escape (`\"`, `\\`, `\/`, `\b`, `\f`,
`\n`, `\r`, `\t`), as accepted by `JSON.parse`. -/
def unescapeChar (e : Char) : Option Char :=
  if e = '\"' then some '\"'
  else if e = '\\' then some '\\'
  else if e = '/' then some '/'
  else if e = 'b' then some (Char.ofNat 8)
  else if e = 'f' then some (Char.ofNat 12)
  else if e = 'n' then some '\n'
  else if e = 'r' then some '\r'
  else if e = 't' then some '\t'
  else none

/-- Code point of a `\uXXXX` escape's four hex digits. -/
def hex4 (h1 h2 h3 h4 : Char) : Option Nat :=
  match hexVal h1, hexVal h2, hexVal h3, hexVal h4 with
  | some v1, some v2, some v3, some v4 =>
    some (v1 * 4096 + v2 * 256 + v3 * 16 + v4)
  | _, _, _, _ => none

/-- Parse the body of a JSON string up to and including the closing quote,
returning the unescaped content and the remaining input (the string-literal
fragment of `JSON.parse`). -/
def parseStr : List Char → Option (List Char × List Char)
  | [] => none
  | '\"' :: rest => some ([], rest)
  | '\\' :: rest =>
    match rest with
    | [] => none
    | e :: rest' =>
      if e = 'u' then
        match rest' with
        | h1 :: h2 :: h3 :: h4 :: rest'' =>
          (hex4 h1 h2 h3 h4).bind fun n =>
            (mkChar n).bind fun c =>
              (parseStr rest'').map (fun pr => (c :: pr.1, pr.2))
        | _ => none
      else
        (unescapeChar e).bind fun c =>
          (parseStr rest').map (fun pr => (c :: pr.1, pr.2))
  | c :: rest => (parseStr rest).map (fun pr => (c :: pr.1, pr.2))

/-- Parse the `"key":"value"` pairs of a flat string-valued JSON object body
(after the opening brace), fuelled by the input length. -/
def parsePairs : Nat → List Char → Option (List (List Char × List Char) × List Char)
  | 0, _ => none
  | fuel + 1, input =>
    match input with
    | '\"' :: rest =>
      match parseStr rest with
      | none => none
      | some (k, r1) =>
        match r1 with
        | ':' :: '\"' :: r2 =>
          match parseStr r2 with
          | none => none
          | some (v, r3) =>
            match r3 with
            | ',' :: r4 => (parsePairs fuel r4).map (fun pr => ((k, v) :: pr.1, pr.2))
            | '\x7d' :: r4 => some ([(k, v)], r4)
            | _ => none
        | _ => none
    | _ => none

/-- Parse a flat string-valued JSON object in the canonical whitespace-free
form emitted by `JSON.stringify`, the restriction of `JSON.parse` to the
shapes this server's client-state tokens take. -/
def parseStateObject (input : List Char) : Option (List (List Char × List Char)) :=
  match input with
  | '\x7b' :: rest =>
    match parsePairs rest.length rest with
    | some (ps, []) => some ps
    | _ => none
  | _ => none

/-- Character shape of one `"key":"value"` fragment of a canonical flat
JSON object, followed by `tail`. -/
def pairChunk (k v tail : List Char) : List Char :=
  '\"' :: (jsonEscape k ++ ('\"' :: ':' :: '\"' :: (jsonEscape v ++ ('\"' :: tail))))

/-- JSON text of the client-state record built in `dialElevenLabsSIP`:
`JSON.stringify({type:"ai_leg", conferenceId, callerFrom})`. -/
def encodeStateJson (conferenceId callerFrom : List Char) : List Char :=
  "\x7b\"type\":\"ai_leg\",\"conferenceId\":\"".toList ++ jsonEscape conferenceId ++
    "\",\"callerFrom\":\"".toList ++ jsonEscape callerFrom ++ "\"\x7d".toList

/-- The opaque client-state token placed on the AI SIP dial:
`Buffer.from(JSON.stringify(record)).toString("base64")`. -/
def encodeClientState (conferenceId callerFrom : List Char) : List Char :=
  base64Encode (utf8Encode (encodeStateJson conferenceId callerFrom))

/-- Token decoding performed by `handleCallAnswered`:
`JSON.parse(Buffer.from(b64, "base64").toString())`, yielding the object's
key/value pairs, or `none` on any decoding failure. -/
def decodeClientState (b64 : List Char) : Option (List (List Char × List Char)) :=
  (base64Decode b64).bind fun bytes =>
    (utf8Decode bytes).bind fun chars =>
      parseStateObject chars

/-- Field access on a decoded token object (`clientState.field`). -/
def getField (cs : List (List Char × List Char)) (k : List Char) : Option (List Char) :=
  (cs.find? (fun p => p.1 == k)).map (fun p => p.2)

/-- String value of a token field where the source would pass the raw field
to an API call; a missing field surfaces as JavaScript `undefined`. -/
def strField (cs : List (List Char × List Char)) (k : List Char) : String :=
  ((getField cs k).map List.asString).getD "undefined"

/-! ## Correlation Store

JavaScript `Map`s modelled as association lists.  Reachable states have
unique keys; `mapDelete` removes every binding of the key, which coincides
with `Map.delete` under that invariant. -/

/-- `Map.get`. -/
def mapGet : List (String × α) → String → Option α
  | [], _ => none
  | (k', v) :: rest, k => if k' = k then some v else mapGet rest k

/-- `Map.set`: update in place, else append (JavaScript insertion order). -/
def mapSet : List (String × α) → String → α → List (String × α)
  | [], k, v => [(k, v)]
  | (k', v') :: rest, k, v =>
    if k' = k then (k, v) :: rest else (k', v') :: mapSet rest k v

/-- `Map.delete` (removes every binding of the key; the same operation as
`Map.delete` on the unique-key states the server reaches). -/
def mapDelete : List (String × α) → String → List (String × α)
  | [], _ => []
  | p :: rest, k => if p.1 = k then mapDelete rest k else p :: mapDelete rest k

/-- `Map.has`. -/
def mapHas (m : List (String × α)) (k : String) : Bool :=
  (mapGet m k).isSome

/-- Update the first element satisfying the predicate, as the source's
`for ... { if (pred) { mutate; break } }` and `find` + mutate idioms do. -/
def updateFirst (pred : α → Bool) (f : α → α) : List α → List α
  | [] => []
  | x :: rest => if pred x then f x :: rest else x :: updateFirst pred f rest

/-! ## Data model -/

/-- Entry of `pendingCalls` (inbound leg answered, conference not yet
created).  `from`/`to` are spelled `fromNum`/`toNum` (`from` is a Lean
keyword). -/
structure PendingInfo where
  fromNum : String
  toNum : String
  agentName : String
  timestamp : Nat
  deriving DecidableEq, Repr

/-- Entry of `pendingOutboundCalls` (outbound AI call tracked at
`call.initiated` for token-less `call.answered` correlation). -/
structure OutboundInfo where
  fromNum : String
  toNum : String
  agentName : String
  timestamp : Nat
  deriving DecidableEq, Repr

/-- Entry of `activeConferences`.  Fields the source adds dynamically
(`userJoined`, `userCallControlId`, `isOutbound`) are always present here,
defaulted to their JavaScript-undefined reading. -/
structure ConfData where
  conferenceId : String
  agentName : String
  callerFrom : String
  callerCallControlId : String
  agentPhoneNumber : String
  aiCallControlId : Option String
  aiConnected : Bool
  isOutbound : Bool := false
  userJoined : Bool := false
  userCallControlId : Option String := none
  createdAt : Nat
  deriving DecidableEq, Repr

/-- Entry of `callHistory`. -/
structure HistoryEntry where
  id : String
  callerPhone : String
  agentPhone : String
  agentName : String
  direction : String
  status : String
  startTime : Nat
  callControlId : String
  conferenceId : Option String
  aiCallControlId : Option String
  endTime : Option Nat
  duration : Option Nat
  deriving DecidableEq, Repr

/-- Entry of a `liveTranscripts` buffer. -/
structure TranscriptEntry where
  id : String
  timestamp : Nat
  speaker : String
  text : String
  isFinal : Bool
  callControlId : String
  deriving DecidableEq, Repr

/-- The server's mutable module state. -/
structure ServerState where
  pendingCalls : List (String × PendingInfo) := []
  pendingOutboundCalls : List (String × OutboundInfo) := []
  activeConferences : List (String × ConfData) := []
  callHistory : List HistoryEntry := []
  liveTranscripts : List (String × List TranscriptEntry) := []
  deriving DecidableEq, Repr

/-- Remote side effects, recorded in issue order. -/
inductive Action where
  | answer (callControlId : String)
  | createConference (name : String) (callControlId : String)
  | joinConference (conferenceId : String) (callControlId : String)
  | dialSip (agentPhoneNumber : String) (conferenceId : String) (callerFrom : String)
  | startTranscription (conferenceId : String)
  | notify (endpoint : String)
  deriving DecidableEq, Repr

/-- Results of the remote calls a single handler invocation may make, plus
the invocation's clock reading. -/
structure Env where
  now : Nat := 0
  answerResult : Bool := true
  createConferenceResult : Option String := none
  joinResult : Bool := true
  dialResult : Option String := none
  startTranscriptionResult : Bool := true
  deriving DecidableEq, Repr

/-- `AGENT_PHONE_NUMBERS`: configured agent numbers and their agent names. -/
def AGENT_PHONE_NUMBERS : List (String × String) :=
  [("+18635008639", "Executive Assistant")]

/-- `MAX_CALL_HISTORY`. -/
def MAX_CALL_HISTORY : Nat := 200

/-- `callHistory.unshift(entry)` followed by the 200-entry truncation. -/
def pushHistory (h : List HistoryEntry) (e : HistoryEntry) : List HistoryEntry :=
  let h' := e :: h
  if h'.length > MAX_CALL_HISTORY then h'.dropLast else h'

/-- History-record id: `call_${Date.now()}_${callControlId.slice(-8)}`. -/
def mkCallId (now : Nat) (ccid : String) : String :=
  "call_" ++ toString now ++ "_" ++ (ccid.toList.drop (ccid.length - 8)).asString

/-! ## Webhook payloads

JavaScript string truthiness (`if (x)`) is modelled by comparison with the
empty string; absent optional fields are `none`. -/

/-- `call.initiated` payload fields the handler reads. -/
structure InitiatedPayload where
  call_control_id : String := ""
  toNum : String := ""
  fromNum : String := ""
  direction : String := ""
  deriving DecidableEq, Repr

/-- `call.answered` payload fields the handler reads. -/
structure AnsweredPayload where
  call_control_id : String := ""
  client_state : Option (List Char) := none
  fromNum : String := ""
  deriving DecidableEq, Repr

/-- `call.hangup` payload fields the handler reads. -/
structure HangupPayload where
  call_control_id : String := ""
  deriving DecidableEq, Repr

/-- `conference.transcription` payload fields the handler reads. -/
structure TranscriptionPayload where
  conference_id : String := ""
  transcript : String := ""
  is_final : Bool := false
  call_control_id : String := ""
  deriving DecidableEq, Repr

/-! ## handleCallInitiated -/

/-- Destination test for outbound tracking:
`to && (to.includes("sip.rtc.elevenlabs.io") || to.startsWith("sip:"))`. -/
def isSipCall (toNum : String) : Bool :=
  decide (toNum ≠ "") &&
    (decide ("sip.rtc.elevenlabs.io".toList <:+: toNum.toList) ||
      toNum.startsWith "sip:")

/-- `handleCallInitiated`: track outbound AI calls from agent numbers, then
for inbound calls to an agent number record a Pending Call, push a history
entry, answer the leg, and roll the Pending Call back if answering fails. -/
def handleCallInitiated (env : Env) (p : InitiatedPayload) (s : ServerState) :
    ServerState × List Action :=
  let ccid := p.call_control_id
  if ccid = "" then (s, [])
  else
    let s0 :=
      if p.direction = "outgoing" ∧ p.fromNum ≠ "" then
        match mapGet AGENT_PHONE_NUMBERS p.fromNum with
        | some agentName =>
          if isSipCall p.toNum then s
          else { s with
            pendingOutboundCalls := mapSet s.pendingOutboundCalls ccid
              ⟨p.fromNum, p.toNum, agentName, env.now⟩ }
        | none => s
      else s
    if p.direction ≠ "inbound" ∧ p.direction ≠ "incoming" then (s0, [])
    else
      match mapGet AGENT_PHONE_NUMBERS p.toNum with
      | none => (s0, [])
      | some agentName =>
        let s1 := { s0 with
          pendingCalls := mapSet s0.pendingCalls ccid
            ⟨p.fromNum, p.toNum, agentName, env.now⟩,
          callHistory := pushHistory s0.callHistory
            { id := mkCallId env.now ccid, callerPhone := p.fromNum,
              agentPhone := p.toNum, agentName := agentName,
              direction := "inbound", status := "initiated",
              startTime := env.now, callControlId := ccid,
              conferenceId := none, aiCallControlId := none,
              endTime := none, duration := none } }
        if env.answerResult then (s1, [Action.answer ccid])
        else ({ s1 with pendingCalls := mapDelete s1.pendingCalls ccid },
          [Action.answer ccid])

/-! ## handleCallAnswered -/

/-- Token kind literals. -/
def typeKey : List Char := "type".toList

/-- `"ai_leg"` discriminant. -/
def aiLegLit : List Char := "ai_leg".toList

/-- `"conference_join"` discriminant. -/
def confJoinLit : List Char := "conference_join".toList

/-- `"ai_outbound"` discriminant. -/
def aiOutboundLit : List Char := "ai_outbound".toList

/-- Token decoding step of `handleCallAnswered`: an absent or empty
`client_state` is falsy and skipped; otherwise decode, with failure caught
and treated as no token. -/
def decodedToken (e : AnsweredPayload) : Option (List (List Char × List Char)) :=
  match e.client_state with
  | none => none
  | some b64 => if b64 = [] then none else decodeClientState b64

/-- AI-leg branch: join the conference named in the token; on success mark
the first matching conference connected and update its history entry. -/
def aiLegFlow (env : Env) (ccid : String) (cs : List (List Char × List Char))
    (s : ServerState) : ServerState × List Action :=
  let confId := strField cs "conferenceId".toList
  let acts := [Action.joinConference confId ccid]
  if env.joinResult then
    if s.activeConferences.any (fun p => p.2.conferenceId == confId) then
      ({ s with
          activeConferences := updateFirst (fun p => p.2.conferenceId == confId)
            (fun p => (p.1, { p.2 with aiCallControlId := some ccid, aiConnected := true }))
            s.activeConferences,
          callHistory := updateFirst (fun h => h.conferenceId == some confId)
            (fun h => { h with aiCallControlId := some ccid, status := "connected" })
            s.callHistory }, acts)
    else (s, acts)
  else (s, acts)

/-- Human-takeover branch (`conference_join`): join the leg, mark the first
matching conference user-joined, and notify Cortex when the token names an
originating call. -/
def confJoinFlow (env : Env) (ccid : String) (cs : List (List Char × List Char))
    (s : ServerState) : ServerState × List Action :=
  let confId := strField cs "conference_id".toList
  let acts := [Action.joinConference confId ccid]
  if env.joinResult then
    let s' := { s with
      activeConferences := updateFirst (fun p => p.2.conferenceId == confId)
        (fun p => (p.1, { p.2 with userJoined := true, userCallControlId := some ccid }))
        s.activeConferences }
    let acts' := acts ++
      match getField cs "original_call_id".toList with
      | some v => if v = [] then [] else [Action.notify "user-joined"]
      | none => []
    (s', acts')
  else (s, acts)

/-- Outbound-contact branch (`ai_outbound` token): create a conference
anchored on the contact leg, record it, push history, dial the AI SIP
endpoint, and notify Cortex. -/
def aiOutboundFlow (env : Env) (e : AnsweredPayload) (cs : List (List Char × List Char))
    (s : ServerState) : ServerState × List Action :=
  let ccid := e.call_control_id
  let toNumber := strField cs "to_number".toList
  let agentPhoneNumber := e.fromNum
  let confName := "outbound_" ++ toString env.now
  let acts := [Action.createConference confName ccid]
  match env.createConferenceResult with
  | none => (s, acts)
  | some confId =>
    let s1 := { s with
      activeConferences := mapSet s.activeConferences ccid
        { conferenceId := confId, agentName := "Executive Assistant",
          callerFrom := toNumber, callerCallControlId := ccid,
          agentPhoneNumber := agentPhoneNumber, aiCallControlId := none,
          aiConnected := false, isOutbound := true, createdAt := env.now },
      callHistory := pushHistory s.callHistory
        { id := mkCallId env.now ccid, callerPhone := toNumber,
          agentPhone := agentPhoneNumber, agentName := "Executive Assistant",
          direction := "outbound", status := "in_progress", startTime := env.now,
          callControlId := ccid, conferenceId := some confId,
          aiCallControlId := none, endTime := none, duration := none } }
    let acts1 := acts ++ [Action.dialSip agentPhoneNumber confId toNumber]
    if env.dialResult.isSome then (s1, acts1 ++ [Action.notify "outbound-connected"])
    else (s1, acts1)

/-- Token-less fallback for tracked outbound AI calls: consume the
`pendingOutboundCalls` entry, create a conference, record it, dial the AI
SIP endpoint, notify Cortex, and start transcription. -/
def outboundFallbackFlow (env : Env) (ccid : String) (po : OutboundInfo)
    (s : ServerState) : ServerState × List Action :=
  let confName := "outbound_" ++ toString env.now
  let acts := [Action.createConference confName ccid]
  match env.createConferenceResult with
  | none => (s, acts)
  | some confId =>
    let s1 := { s with
      activeConferences := mapSet s.activeConferences ccid
        { conferenceId := confId, agentName := po.agentName,
          callerFrom := po.toNum, callerCallControlId := ccid,
          agentPhoneNumber := po.fromNum, aiCallControlId := none,
          aiConnected := false, isOutbound := true, createdAt := env.now },
      callHistory := pushHistory s.callHistory
        { id := mkCallId env.now ccid, callerPhone := po.toNum,
          agentPhone := po.fromNum, agentName := po.agentName,
          direction := "outbound", status := "in_progress", startTime := env.now,
          callControlId := ccid, conferenceId := some confId,
          aiCallControlId := none, endTime := none, duration := none } }
    let acts1 := acts ++ [Action.dialSip po.fromNum confId po.toNum]
    if env.dialResult.isSome then
      let acts2 := acts1 ++ [Action.notify "outbound-connected",
        Action.startTranscription confId]
      if env.startTranscriptionResult then
        ({ s1 with liveTranscripts := mapSet s1.liveTranscripts confId [] }, acts2)
      else (s1, acts2)
    else (s1, acts1)

/-- Inbound continuation: consume the Pending Call, create a conference
anchored on the caller leg, record it, update history, and dial the AI SIP
endpoint. -/
def inboundAnsweredFlow (env : Env) (ccid : String) (pi : PendingInfo)
    (s : ServerState) : ServerState × List Action :=
  let confName := "call_" ++ toString env.now
  let acts := [Action.createConference confName ccid]
  match env.createConferenceResult with
  | none => (s, acts)
  | some confId =>
    let s1 := { s with
      activeConferences := mapSet s.activeConferences ccid
        { conferenceId := confId, agentName := pi.agentName,
          callerFrom := pi.fromNum, callerCallControlId := ccid,
          agentPhoneNumber := pi.toNum, aiCallControlId := none,
          aiConnected := false, createdAt := env.now },
      callHistory := updateFirst (fun h => h.callControlId == ccid)
        (fun h => { h with status := "in_progress", conferenceId := some confId })
        s.callHistory }
    (s1, acts ++ [Action.dialSip pi.toNum confId pi.fromNum])

/-- Id-based correlation of `handleCallAnswered`, reached when no recognized
token is present: the `pendingOutboundCalls` fallback is checked first, then
`pendingCalls`; both consume their entry before any remote call is issued,
and an event matching neither is a no-op. -/
def idFallbackFlow (env : Env) (ccid : String) (s : ServerState) :
    ServerState × List Action :=
  match mapGet s.pendingOutboundCalls ccid with
  | some po =>
    outboundFallbackFlow env ccid po
      { s with pendingOutboundCalls := mapDelete s.pendingOutboundCalls ccid }
  | none =>
    match mapGet s.pendingCalls ccid with
    | some pi =>
      inboundAnsweredFlow env ccid pi
        { s with pendingCalls := mapDelete s.pendingCalls ccid }
    | none => (s, [])

/-- `handleCallAnswered`: dispatch on the decoded token's kind when one is
present (an unrecognized kind falls out of the token block), else on
id-based correlation. -/
def handleCallAnswered (env : Env) (e : AnsweredPayload) (s : ServerState) :
    ServerState × List Action :=
  match decodedToken e with
  | some cs =>
    if getField cs typeKey = some aiLegLit then aiLegFlow env e.call_control_id cs s
    else if getField cs typeKey = some confJoinLit then
      confJoinFlow env e.call_control_id cs s
    else if getField cs typeKey = some aiOutboundLit then aiOutboundFlow env e cs s
    else idFallbackFlow env e.call_control_id s
  | none => idFallbackFlow env e.call_control_id s

/-! ## handleCallHangup -/

/-- History match used by the hangup handler:
`h.callControlId === ccid || h.aiCallControlId === ccid`. -/
def hangupHistPred (ccid : String) (h : HistoryEntry) : Bool :=
  h.callControlId == ccid || h.aiCallControlId == some ccid

/-- History update on hangup: only an entry without a terminal time is
marked completed, with duration `Math.round((end - start) / 1000)`. -/
def updateCallHistoryOnHangup (hist : List HistoryEntry) (ccid : String)
    (now : Nat) : List HistoryEntry :=
  match hist.find? (hangupHistPred ccid) with
  | none => hist
  | some h0 =>
    if h0.endTime.isNone then
      updateFirst (hangupHistPred ccid)
        (fun h => { h with
          endTime := some now,
          status := "completed",
          duration := some ((now - h.startTime + 500) / 1000) }) hist
    else hist

/-- Clear the AI slot of every conference whose AI leg is the hung-up leg
(the source loop has no break). -/
def clearAiLegs (m : List (String × ConfData)) (ccid : String) :
    List (String × ConfData) :=
  m.map (fun p =>
    if p.2.aiCallControlId == some ccid then
      (p.1, { p.2 with aiCallControlId := none, aiConnected := false })
    else p)

/-- `handleCallHangup`: close the history entry, purge a still-pending call,
delete the conference anchored on the leg, clear AI slots referencing the
leg, and notify Cortex.  The deferred 5-minute transcript cleanup timer is
outside the model. -/
def handleCallHangup (env : Env) (p : HangupPayload) (s : ServerState) :
    ServerState × List Action :=
  let ccid := p.call_control_id
  let s1 := { s with callHistory := updateCallHistoryOnHangup s.callHistory ccid env.now }
  let s2 := { s1 with pendingCalls := mapDelete s1.pendingCalls ccid }
  let s3 := { s2 with activeConferences := mapDelete s2.activeConferences ccid }
  let s4 := { s3 with activeConferences := clearAiLegs s3.activeConferences ccid }
  (s4, [Action.notify "call-ended"])

/-! ## handleTranscription -/

/-- Speaker attribution: the first conference matching the id decides; its
AI leg speaks as `"AI"`, anyone else as `"Contact"`. -/
def speakerFor (confs : List (String × ConfData)) (confId pccid : String) : String :=
  match confs.find? (fun p => p.2.conferenceId == confId) with
  | some p => if p.2.aiCallControlId == some pccid then "AI" else "Contact"
  | none => "Contact"

/-- Transcript push with the 500-entry bound: push, then shift the oldest
entry when the bound is exceeded. -/
def boundedPush (ts : List TranscriptEntry) (e : TranscriptEntry) :
    List TranscriptEntry :=
  let ts' := ts ++ [e]
  if ts'.length > 500 then ts'.drop 1 else ts'

/-- `handleTranscription`: ignore events without a conference id or text,
ensure a buffer exists, append only finalized text under the 500-entry
bound, and forward the entry to Cortex. -/
def handleTranscription (env : Env) (p : TranscriptionPayload) (s : ServerState) :
    ServerState × List Action :=
  if p.conference_id = "" ∨ p.transcript = "" then (s, [])
  else
    let speaker := speakerFor s.activeConferences p.conference_id p.call_control_id
    let entry : TranscriptEntry :=
      { id := "tr_" ++ toString env.now, timestamp := env.now, speaker := speaker,
        text := p.transcript, isFinal := p.is_final,
        callControlId := p.call_control_id }
    let m0 :=
      if mapHas s.liveTranscripts p.conference_id then s.liveTranscripts
      else mapSet s.liveTranscripts p.conference_id []
    let ts := (mapGet m0 p.conference_id).getD []
    let m1 :=
      if p.is_final then mapSet m0 p.conference_id (boundedPush ts entry) else m0
    ({ s with liveTranscripts := m1 }, [Action.notify "transcript"])

/-! ## Observation helpers for the claims -/

/-- Number of `createConference` calls issued for a given leg id. -/
def countCreateConfFor (acts : List Action) (ccid : String) : Nat :=
  (acts.filter (fun a =>
    match a with
    | Action.createConference _ c => c == ccid
    | _ => false)).length

/-- Number of `joinConference conferenceId legId` calls issued. -/
def countJoinFor (acts : List Action) (confId ccid : String) : Nat :=
  (acts.filter (fun a =>
    match a with
    | Action.joinConference cf c => cf == confId && c == ccid
    | _ => false)).length

/-- The event reaches id-based correlation: its token is absent, empty,
undecodable, or of an unrecognized kind. -/
def fallsThrough (e : AnsweredPayload) : Bool :=
  match decodedToken e with
  | none => true
  | some cs =>
    getField cs typeKey != some aiLegLit &&
    getField cs typeKey != some confJoinLit &&
    getField cs typeKey != some aiOutboundLit

/-! ## Concrete example data used by the claim theorems -/

/-- Concrete inbound caller-leg data instantiating C1. -/
def c1Event : AnsweredPayload := { call_control_id := "L1" }

/-- Concrete server state with a Pending Call for leg `L1`. -/
def c1State : ServerState :=
  { pendingCalls :=
      [("L1", ⟨"+15551112222", "+18635008639", "Executive Assistant", 1000⟩)] }

/-- Environment where every remote call succeeds. -/
def c1Env : Env :=
  { now := 2000, createConferenceResult := some "CONF1", dialResult := some "AI1" }

/-- The AI-leg correlation token for conference `C1`, as `dialElevenLabsSIP`
would have attached it. -/
def c2Token : List Char := encodeClientState "C1".toList "+15551112222".toList

/-- AI-leg `answered` event carrying the `C1` token. -/
def c2Event : AnsweredPayload :=
  { call_control_id := "L2", client_state := some c2Token }

/-- Conference record for `C1`, anchored on caller leg `L1`. -/
def c2Conf : ConfData :=
  { conferenceId := "C1", agentName := "Executive Assistant",
    callerFrom := "+15551112222", callerCallControlId := "L1",
    agentPhoneNumber := "+18635008639", aiCallControlId := none,
    aiConnected := false, createdAt := 0 }

/-- Server state tracking conference `C1`. -/
def c2State : ServerState := { activeConferences := [("L1", c2Conf)] }

/-- Environment where the join succeeds. -/
def c2Env : Env := { now := 3000 }

/-- The decoded pairs of `c2Token`. -/
def c2Pairs : List (List Char × List Char) :=
  [("type".toList, "ai_leg".toList), ("conferenceId".toList, "C1".toList),
    ("callerFrom".toList, "+15551112222".toList)]

/-- Pending Call data for the C3 counterexample. -/
def c3Pending : PendingInfo :=
  ⟨"+15553334444", "+18635008639", "Executive Assistant", 0⟩

/-- Tracked-outbound data for the C3 counterexample. -/
def c3Outbound : OutboundInfo :=
  ⟨"+18635008639", "+15557778888", "Executive Assistant", 0⟩

/-- State in which leg `L9` matches both a Pending Call and a tracked
outbound attempt. -/
def c3State : ServerState :=
  { pendingCalls := [("L9", c3Pending)],
    pendingOutboundCalls := [("L9", c3Outbound)] }

/-- Token-less `answered` event for `L9`. -/
def c3Event : AnsweredPayload := { call_control_id := "L9" }

/-- Environment where every remote call succeeds. -/
def c3Env : Env :=
  { now := 5000, createConferenceResult := some "CONF9", dialResult := some "AI9" }

/-- Conference anchored on leg `L1` for the C4 witness. -/
def c4ConfAnchor : ConfData :=
  { conferenceId := "C1", agentName := "Executive Assistant",
    callerFrom := "+15551112222", callerCallControlId := "L1",
    agentPhoneNumber := "+18635008639", aiCallControlId := some "A7",
    aiConnected := true, createdAt := 0 }

/-- Conference anchored on leg `K2` whose AI leg is `L1`. -/
def c4ConfAi : ConfData :=
  { conferenceId := "C2", agentName := "Executive Assistant",
    callerFrom := "+15559990000", callerCallControlId := "K2",
    agentPhoneNumber := "+18635008639", aiCallControlId := some "L1",
    aiConnected := true, createdAt := 0 }

/-- State with both conferences for the C4 witness. -/
def c4State : ServerState :=
  { activeConferences := [("L1", c4ConfAnchor), ("K2", c4ConfAi)] }

/-- Hangup event for leg `L1`. -/
def c4Event : HangupPayload := { call_control_id := "L1" }

/-- Environment for the C4 witness. -/
def c4Env : Env := { now := 9000 }

/-- Tracked-outbound entry created at time 0 for the C5 counterexample. -/
def c5Outbound : OutboundInfo :=
  ⟨"+18635008639", "+15551230000", "Executive Assistant", 0⟩

/-- State holding only the stale entry. -/
def c5State : ServerState := { pendingOutboundCalls := [("L9", c5Outbound)] }

/-- Token-less `answered` event for the stale leg. -/
def c5Event : AnsweredPayload := { call_control_id := "L9" }

/-- Clock reading 1000 seconds after the entry was created, far beyond the
claimed 60-second TTL. -/
def c5Env : Env :=
  { now := 1000000, createConferenceResult := some "CONF5",
    dialResult := some "AI5" }

/-- Inbound `initiated` event for the C6 witness. -/
def c6Payload : InitiatedPayload :=
  { call_control_id := "L1", toNum := "+18635008639",
    fromNum := "+15551112222", direction := "inbound" }

/-- Environment whose `answer` call fails. -/
def c6Env : Env := { now := 1000, answerResult := false }

/-- `answered` event carrying a token that is not valid base64. -/
def c7Event : AnsweredPayload :=
  { call_control_id := "L1", client_state := some "!!!".toList }

/-- Final transcription event for the C9 witness. -/
def c9Payload : TranscriptionPayload :=
  { conference_id := "C1", transcript := "hello there", is_final := true,
    call_control_id := "L1" }

/-- Environment for the C9 witness. -/
def c9Env : Env := { now := 7000 }

/-- Completed history entry for call leg `L1`. -/
def c10Entry : HistoryEntry :=
  { id := "call_1", callerPhone := "+15551112222",
    agentPhone := "+18635008639", agentName := "Executive Assistant",
    direction := "inbound", status := "completed", startTime := 1000,
    callControlId := "L1", conferenceId := some "C1",
    aiCallControlId := some "A7", endTime := some 5000,
    duration := some 4 }

/-- State whose history already records the call as completed. -/
def c10State : ServerState := { callHistory := [c10Entry] }

/-- Duplicate hangup event for `L1`. -/
def c10Event : HangupPayload := { call_control_id := "L1" }

/-- Environment for the C10 witness. -/
def c10Env : Env := { now := 9999 }

/-! ## Codec lemmas -/

theorem b64DecChar_encChar : ∀ m, m < 64 → b64DecChar (b64EncChar m) = some m := by
  decide

theorem b64DecChar_pad : b64DecChar '=' = none := by decide

theorem base64_roundtrip_one (b0 : Nat) (hb0 : b0 < 256) :
    base64Decode (base64Encode [b0]) = some [b0] := by
  simp only [base64Encode, base64Decode,
    b64DecChar_encChar _ (by omega : b0 / 4 < 64),
    b64DecChar_encChar _ (by omega : b0 % 4 * 16 < 64),
    b64DecChar_pad, and_self, if_true]
  have : b0 / 4 * 4 + b0 % 4 * 16 / 16 = b0 := by omega
  rw [this]

theorem base64_roundtrip_two (b0 b1 : Nat) (hb0 : b0 < 256) (hb1 : b1 < 256) :
    base64Decode (base64Encode [b0, b1]) = some [b0, b1] := by
  simp only [base64Encode, base64Decode,
    b64DecChar_encChar _ (by omega : b0 / 4 < 64),
    b64DecChar_encChar _ (by omega : b0 % 4 * 16 + b1 / 16 < 64),
    b64DecChar_encChar _ (by omega : b1 % 16 * 4 < 64),
    b64DecChar_pad, and_self, if_true]
  have h1 : b0 / 4 * 4 + (b0 % 4 * 16 + b1 / 16) / 16 = b0 := by omega
  have h2 : (b0 % 4 * 16 + b1 / 16) % 16 * 16 + b1 % 16 * 4 / 4 = b1 := by omega
  rw [h1, h2]

theorem base64_roundtrip : ∀ bs : List Nat, (∀ b ∈ bs, b < 256) →
    base64Decode (base64Encode bs) = some bs := by
  intro bs
  induction bs using base64Encode.induct with
  | case1 => intro _; rfl
  | case2 b0 => intro h; exact base64_roundtrip_one b0 (h b0 (by simp))
  | case3 b0 b1 =>
    intro h
    exact base64_roundtrip_two b0 b1 (h b0 (by simp)) (h b1 (by simp))
  | case4 b0 b1 b2 rest ih =>
    intro h
    have hb0 := h b0 (by simp)
    have hb1 := h b1 (by simp)
    have hb2 := h b2 (by simp)
    have hrest : ∀ b ∈ rest, b < 256 := fun b hb => h b (by simp [hb])
    simp only [base64Encode, base64Decode,
      b64DecChar_encChar _ (by omega : b0 / 4 < 64),
      b64DecChar_encChar _ (by omega : b0 % 4 * 16 + b1 / 16 < 64),
      b64DecChar_encChar _ (by omega : b1 % 16 * 4 + b2 / 64 < 64),
      b64DecChar_encChar _ (by omega : b2 % 64 < 64),
      ih hrest]
    have h1 : b0 / 4 * 4 + (b0 % 4 * 16 + b1 / 16) / 16 = b0 := by omega
    have h2 : (b0 % 4 * 16 + b1 / 16) % 16 * 16 + (b1 % 16 * 4 + b2 / 64) / 4 = b1 := by
      omega
    have h3 : (b1 % 16 * 4 + b2 / 64) % 4 * 64 + b2 % 64 = b2 := by omega
    rw [h1, h2, h3]
    rfl

theorem char_isValid (c : Char) : Nat.isValidChar c.toNat := c.valid

theorem char_toNat_lt (c : Char) : c.toNat < 0x110000 := by
  rcases char_isValid c with h | h <;> omega

theorem mkChar_toNat (c : Char) : mkChar c.toNat = some c := by
  rw [mkChar, if_pos (char_isValid c), Char.ofNat_toNat]

theorem utf8DecodeAux_nil (fuel : Nat) : utf8DecodeAux fuel [] = some [] := by
  cases fuel <;> rfl

theorem utf8DecodeAux_encChar (c : Char) (fuel : Nat) (bs : List Nat) :
    utf8DecodeAux (fuel + 1) (utf8EncodeChar c ++ bs) =
      (utf8DecodeAux fuel bs).map (fun t => c :: t) := by
  have hlt := char_toNat_lt c
  by_cases h1 : c.toNat < 0x80
  · rw [utf8EncodeChar]
    simp only [if_pos h1, List.cons_append, List.nil_append]
    rw [utf8DecodeAux, if_pos h1, mkChar_toNat]
    rfl
  · by_cases h2 : c.toNat < 0x800
    · rw [utf8EncodeChar]
      simp only [if_neg h1, if_pos h2, List.cons_append, List.nil_append]
      rw [utf8DecodeAux, if_neg (by omega), if_neg (by omega), if_pos (by omega)]
      rw [utf8Decode2,
        if_pos (by simp only [isCont, Bool.and_eq_true, decide_eq_true_eq]; omega)]
      have harith : (0xC0 + c.toNat / 64 - 0xC0) * 64 + (0x80 + c.toNat % 64 - 0x80) =
          c.toNat := by omega
      rw [harith, mkChar_toNat]
      rfl
    · by_cases h3 : c.toNat < 0x10000
      · rw [utf8EncodeChar]
        simp only [if_neg h1, if_neg h2, if_pos h3, List.cons_append, List.nil_append]
        rw [utf8DecodeAux, if_neg (by omega), if_neg (by omega), if_neg (by omega),
          if_pos (by omega)]
        rw [utf8Decode3,
          if_pos (by simp only [isCont, Bool.and_eq_true, decide_eq_true_eq]; omega)]
        have harith : (0xE0 + c.toNat / 4096 - 0xE0) * 4096 +
            (0x80 + c.toNat / 64 % 64 - 0x80) * 64 + (0x80 + c.toNat % 64 - 0x80) =
            c.toNat := by omega
        rw [harith, mkChar_toNat]
        rfl
      · rw [utf8EncodeChar]
        simp only [if_neg h1, if_neg h2, if_neg h3, List.cons_append, List.nil_append]
        rw [utf8DecodeAux, if_neg (by omega), if_neg (by omega), if_neg (by omega),
          if_neg (by omega), if_pos (by omega)]
        rw [utf8Decode4,
          if_pos (by simp only [isCont, Bool.and_eq_true, decide_eq_true_eq]; omega)]
        have harith : (0xF0 + c.toNat / 262144 - 0xF0) * 262144 +
            (0x80 + c.toNat / 4096 % 64 - 0x80) * 4096 +
            (0x80 + c.toNat / 64 % 64 - 0x80) * 64 + (0x80 + c.toNat % 64 - 0x80) =
            c.toNat := by omega
        rw [harith, mkChar_toNat]
        rfl

theorem utf8Encode_ge_length : ∀ s : List Char, s.length ≤ (utf8Encode s).length := by
  intro s
  induction s with
  | nil => simp [utf8Encode]
  | cons c t ih =>
    have h1 : 1 ≤ (utf8EncodeChar c).length := by
      rw [utf8EncodeChar]
      split_ifs <;> simp
    rw [utf8Encode, List.length_append, List.length_cons]
    omega

theorem utf8DecodeAux_encode : ∀ (s : List Char) (fuel : Nat) (bs : List Nat),
    utf8DecodeAux (s.length + fuel) (utf8Encode s ++ bs) =
      (utf8DecodeAux fuel bs).map (fun t => s ++ t) := by
  intro s
  induction s with
  | nil =>
    intro fuel bs
    rw [utf8Encode]
    simp only [List.length_nil, Nat.zero_add, List.nil_append]
    cases utf8DecodeAux fuel bs <;> rfl
  | cons c t ih =>
    intro fuel bs
    have hlen : (c :: t).length + fuel = t.length + fuel + 1 := by
      rw [List.length_cons]; omega
    rw [hlen, utf8Encode, List.append_assoc, utf8DecodeAux_encChar, ih]
    cases utf8DecodeAux fuel bs <;> rfl

theorem utf8_roundtrip (s : List Char) : utf8Decode (utf8Encode s) = some s := by
  have hge := utf8Encode_ge_length s
  have hk : (utf8Encode s).length = s.length + ((utf8Encode s).length - s.length) := by
    omega
  rw [utf8Decode, hk]
  have h := utf8DecodeAux_encode s ((utf8Encode s).length - s.length) []
  rw [List.append_nil] at h
  rw [h, utf8DecodeAux_nil]
  simp

theorem utf8Encode_lt : ∀ s : List Char, ∀ b ∈ utf8Encode s, b < 256 := by
  intro s
  induction s with
  | nil => simp [utf8Encode]
  | cons c t ih =>
    intro b hb
    rw [utf8Encode, List.mem_append] at hb
    rcases hb with hb | hb
    · have hlt := char_toNat_lt c
      rw [utf8EncodeChar] at hb
      split_ifs at hb <;> simp_all <;> omega
    · exact ih b hb


theorem hexVal_hexDigit : ∀ m, m < 16 → hexVal (hexDigit m) = some m := by decide

theorem parseStr_backslash (e : Char) (rest : List Char) (h : ¬ e = 'u') :
    parseStr ('\\' :: e :: rest) =
      (unescapeChar e).bind fun c =>
        (parseStr rest).map (fun pr => (c :: pr.1, pr.2)) := by
  rw [parseStr.eq_def]
  simp [h]

theorem parseStr_u (h1 h2 h3 h4 : Char) (rest : List Char) :
    parseStr ('\\' :: 'u' :: h1 :: h2 :: h3 :: h4 :: rest) =
      (hex4 h1 h2 h3 h4).bind fun n =>
        (mkChar n).bind fun c =>
          (parseStr rest).map (fun pr => (c :: pr.1, pr.2)) := by
  rw [parseStr.eq_def]
  simp

theorem parseStr_lit (c : Char) (rest : List Char) (hq : ¬ c = '\"')
    (hb : ¬ c = '\\') :
    parseStr (c :: rest) = (parseStr rest).map (fun pr => (c :: pr.1, pr.2)) := by
  rw [parseStr.eq_def]
  simp [hq, hb]

theorem parseStr_escape : ∀ (s rest : List Char),
    parseStr (jsonEscape s ++ '\"' :: rest) = some (s, rest) := by
  intro s
  induction s with
  | nil => intro rest; rfl
  | cons c t ih =>
    intro rest
    rw [jsonEscape, List.append_assoc]
    by_cases h1 : c = '\"'
    · subst h1
      have hesc : jsonEscapeChar '\"' = ['\\', '\"'] := by decide
      rw [hesc]
      simp only [List.cons_append, List.nil_append]
      rw [parseStr_backslash _ _ (by decide)]
      have hune : unescapeChar '\"' = some '\"' := by decide
      rw [hune, ih]
      rfl
    by_cases h2 : c = '\\'
    · subst h2
      have hesc : jsonEscapeChar '\\' = ['\\', '\\'] := by decide
      rw [hesc]
      simp only [List.cons_append, List.nil_append]
      rw [parseStr_backslash _ _ (by decide)]
      have hune : unescapeChar '\\' = some '\\' := by decide
      rw [hune, ih]
      rfl
    by_cases h3 : c = '\n'
    · subst h3
      have hesc : jsonEscapeChar '\n' = ['\\', 'n'] := by decide
      rw [hesc]
      simp only [List.cons_append, List.nil_append]
      rw [parseStr_backslash _ _ (by decide)]
      have hune : unescapeChar 'n' = some '\n' := by decide
      rw [hune, ih]
      rfl
    by_cases h4 : c = '\r'
    · subst h4
      have hesc : jsonEscapeChar '\r' = ['\\', 'r'] := by decide
      rw [hesc]
      simp only [List.cons_append, List.nil_append]
      rw [parseStr_backslash _ _ (by decide)]
      have hune : unescapeChar 'r' = some '\r' := by decide
      rw [hune, ih]
      rfl
    by_cases h5 : c = '\t'
    · subst h5
      have hesc : jsonEscapeChar '\t' = ['\\', 't'] := by decide
      rw [hesc]
      simp only [List.cons_append, List.nil_append]
      rw [parseStr_backslash _ _ (by decide)]
      have hune : unescapeChar 't' = some '\t' := by decide
      rw [hune, ih]
      rfl
    by_cases h6 : c.toNat = 8
    · have hesc : jsonEscapeChar c = ['\\', 'b'] := by
        rw [jsonEscapeChar, if_neg h1, if_neg h2, if_neg h3, if_neg h4, if_neg h5,
          if_pos h6]
      rw [hesc]
      simp only [List.cons_append, List.nil_append]
      rw [parseStr_backslash _ _ (by decide)]
      have hune : unescapeChar 'b' = some (Char.ofNat 8) := by decide
      have hc : Char.ofNat 8 = c := by
        have : c.toNat = (8 : Nat) := h6
        rw [← this, Char.ofNat_toNat]
      rw [hune, hc, ih]
      rfl
    by_cases h7 : c.toNat = 12
    · have hesc : jsonEscapeChar c = ['\\', 'f'] := by
        rw [jsonEscapeChar, if_neg h1, if_neg h2, if_neg h3, if_neg h4, if_neg h5,
          if_neg h6, if_pos h7]
      rw [hesc]
      simp only [List.cons_append, List.nil_append]
      rw [parseStr_backslash _ _ (by decide)]
      have hune : unescapeChar 'f' = some (Char.ofNat 12) := by decide
      have hc : Char.ofNat 12 = c := by
        rw [← h7, Char.ofNat_toNat]
      rw [hune, hc, ih]
      rfl
    by_cases h8 : c.toNat < 32
    · have hesc : jsonEscapeChar c =
          ['\\', 'u', '0', '0', hexDigit (c.toNat / 16), hexDigit (c.toNat % 16)] := by
        rw [jsonEscapeChar, if_neg h1, if_neg h2, if_neg h3, if_neg h4, if_neg h5,
          if_neg h6, if_neg h7, if_pos h8]
      rw [hesc]
      simp only [List.cons_append, List.nil_append]
      rw [parseStr_u]
      have hx : hex4 '0' '0' (hexDigit (c.toNat / 16)) (hexDigit (c.toNat % 16)) =
          some c.toNat := by
        rw [hex4]
        have hz : hexVal '0' = some 0 := by decide
        rw [hz, hexVal_hexDigit _ (by omega), hexVal_hexDigit _ (by omega)]
        show some _ = some _
        congr 1
        omega
      rw [hx]
      rw [Option.some_bind]
      rw [mkChar_toNat, ih]
      rfl
    · have hesc : jsonEscapeChar c = [c] := by
        rw [jsonEscapeChar, if_neg h1, if_neg h2, if_neg h3, if_neg h4, if_neg h5,
          if_neg h6, if_neg h7, if_neg h8]
      rw [hesc]
      simp only [List.cons_append, List.nil_append]
      rw [parseStr_lit c _ h1 h2, ih]
      rfl

theorem parsePairs_chunk_comma (fuel : Nat) (k v t' : List Char) :
    parsePairs (fuel + 1) (pairChunk k v (',' :: t')) =
      (parsePairs fuel t').map (fun pr => ((k, v) :: pr.1, pr.2)) := by
  rw [pairChunk, parsePairs.eq_def]
  simp only [parseStr_escape]

theorem parsePairs_chunk_brace (fuel : Nat) (k v t' : List Char) :
    parsePairs (fuel + 1) (pairChunk k v ('\x7d' :: t')) = some ([(k, v)], t') := by
  rw [pairChunk, parsePairs.eq_def]
  simp only [parseStr_escape]

theorem parsePairs_encodeBody (f : Nat) (cid cf : List Char) :
    parsePairs (f + 3)
      (pairChunk "type".toList "ai_leg".toList (',' ::
        pairChunk "conferenceId".toList cid (',' ::
          pairChunk "callerFrom".toList cf ['\x7d']))) =
      some ([("type".toList, "ai_leg".toList), ("conferenceId".toList, cid),
        ("callerFrom".toList, cf)], []) := by
  rw [show f + 3 = (f + 2) + 1 from rfl, parsePairs_chunk_comma]
  rw [show f + 2 = (f + 1) + 1 from rfl, parsePairs_chunk_comma]
  rw [parsePairs_chunk_brace]
  rfl

theorem encodeStateJson_shape (cid cf : List Char) :
    encodeStateJson cid cf =
      '\x7b' :: (pairChunk "type".toList "ai_leg".toList (',' ::
        pairChunk "conferenceId".toList cid (',' ::
          pairChunk "callerFrom".toList cf ['\x7d']))) := by
  rw [encodeStateJson, pairChunk, pairChunk, pairChunk]
  have h1 : jsonEscape "type".toList = "type".toList := by decide
  have h2 : jsonEscape "ai_leg".toList = "ai_leg".toList := by decide
  have h3 : jsonEscape "conferenceId".toList = "conferenceId".toList := by decide
  have h4 : jsonEscape "callerFrom".toList = "callerFrom".toList := by decide
  rw [h1, h2, h3, h4]
  simp only [List.cons_append, List.nil_append, List.append_assoc]
  rfl

theorem parseStateObject_encode (cid cf : List Char) :
    parseStateObject (encodeStateJson cid cf) =
      some [("type".toList, "ai_leg".toList), ("conferenceId".toList, cid),
        ("callerFrom".toList, cf)] := by
  rw [encodeStateJson_shape, parseStateObject]
  set r := pairChunk "type".toList "ai_leg".toList (',' ::
    pairChunk "conferenceId".toList cid (',' ::
      pairChunk "callerFrom".toList cf ['\x7d'])) with hr
  obtain ⟨f, hf⟩ : ∃ f, r.length = f + 3 := by
    refine ⟨r.length - 3, ?_⟩
    have : 3 ≤ r.length := by
      rw [hr, pairChunk]
      simp [List.length_cons, List.length_append]
      omega
    omega
  rw [hf, parsePairs_encodeBody]

/-! ## Correlation-store and list lemmas -/

theorem mapGet_mapDelete_self (m : List (String × α)) (k : String) :
    mapGet (mapDelete m k) k = none := by
  induction m with
  | nil => rfl
  | cons p rest ih =>
    rw [mapDelete]
    by_cases h : p.1 = k
    · rw [if_pos h]; exact ih
    · rw [if_neg h, mapGet, if_neg h]; exact ih

theorem mapGet_mapDelete_ne (m : List (String × α)) (k k' : String)
    (h : ¬ k' = k) : mapGet (mapDelete m k) k' = mapGet m k' := by
  induction m with
  | nil => rfl
  | cons p rest ih =>
    rw [mapDelete]
    by_cases hp : p.1 = k
    · have hpk : ¬ p.1 = k' := by rw [hp]; exact fun he => h he.symm
      rw [if_pos hp, mapGet, if_neg hpk]
      exact ih
    · rw [if_neg hp, mapGet, mapGet]
      by_cases hp' : p.1 = k'
      · rw [if_pos hp', if_pos hp']
      · rw [if_neg hp', if_neg hp']; exact ih

theorem mapGet_mapSet_self (m : List (String × α)) (k : String) (v : α) :
    mapGet (mapSet m k v) k = some v := by
  induction m with
  | nil => rw [mapSet, mapGet, if_pos rfl]
  | cons p rest ih =>
    rw [mapSet]
    by_cases h : p.1 = k
    · rw [if_pos h, mapGet, if_pos rfl]
    · rw [if_neg h, mapGet, if_neg h]; exact ih

theorem mapGet_mapSet_ne (m : List (String × α)) (k k' : String) (v : α)
    (h : ¬ k' = k) : mapGet (mapSet m k v) k' = mapGet m k' := by
  have hk : ¬ k = k' := fun he => h he.symm
  induction m with
  | nil => simp [mapSet, mapGet, hk]
  | cons p rest ih =>
    rw [mapSet]
    by_cases hp : p.1 = k
    · have hpk : ¬ p.1 = k' := by rw [hp]; exact hk
      simp [mapGet, hp, hk, hpk]
    · rw [if_neg hp, mapGet, mapGet]
      by_cases hp' : p.1 = k'
      · rw [if_pos hp', if_pos hp']
      · rw [if_neg hp', if_neg hp']; exact ih

theorem mapGet_clearAiLegs (m : List (String × ConfData)) (e k : String) :
    mapGet (clearAiLegs m e) k = (mapGet m k).map (fun cd =>
      if cd.aiCallControlId == some e then
        { cd with aiCallControlId := none, aiConnected := false }
      else cd) := by
  induction m with
  | nil => rfl
  | cons p rest ih =>
    rw [clearAiLegs, List.map_cons]
    by_cases hc : p.2.aiCallControlId == some e
    · rw [if_pos hc, mapGet]
      by_cases hk : p.1 = k
      · rw [if_pos hk, mapGet, if_pos hk, Option.map_some', if_pos hc]
      · rw [if_neg hk, mapGet, if_neg hk]
        rw [clearAiLegs] at ih
        exact ih
    · rw [if_neg hc, mapGet]
      by_cases hk : p.1 = k
      · rw [if_pos hk, mapGet, if_pos hk, Option.map_some', if_neg hc]
      · rw [if_neg hk, mapGet, if_neg hk]
        rw [clearAiLegs] at ih
        exact ih

theorem any_updateFirst (l : List α) (p : α → Bool) (f : α → α)
    (hp : ∀ x, p (f x) = p x) : (updateFirst p f l).any p = l.any p := by
  induction l with
  | nil => rfl
  | cons x rest ih =>
    rw [updateFirst]
    by_cases hx : p x
    · rw [if_pos hx, List.any_cons, List.any_cons, hp, hx]
    · rw [if_neg hx, List.any_cons, List.any_cons, ih]

theorem updateFirst_idem (l : List α) (p : α → Bool) (f : α → α)
    (hp : ∀ x, p (f x) = p x) (hf : ∀ x, f (f x) = f x) :
    updateFirst p f (updateFirst p f l) = updateFirst p f l := by
  induction l with
  | nil => rfl
  | cons x rest ih =>
    rw [updateFirst]
    by_cases hx : p x
    · rw [if_pos hx, updateFirst, hp, if_pos hx, hf]
    · rw [if_neg hx, updateFirst, if_neg hx, ih]

theorem countCreateConfFor_append (a b : List Action) (c : String) :
    countCreateConfFor (a ++ b) c = countCreateConfFor a c + countCreateConfFor b c := by
  rw [countCreateConfFor, countCreateConfFor, countCreateConfFor,
    List.filter_append, List.length_append]

theorem countJoinFor_append (a b : List Action) (cf c : String) :
    countJoinFor (a ++ b) cf c = countJoinFor a cf c + countJoinFor b cf c := by
  rw [countJoinFor, countJoinFor, countJoinFor, List.filter_append,
    List.length_append]


/-! ## Handler-flow lemmas -/

theorem handleCallAnswered_fallsThrough (env : Env) (e : AnsweredPayload)
    (s : ServerState) (h : fallsThrough e = true) :
    handleCallAnswered env e s = idFallbackFlow env e.call_control_id s := by
  rw [handleCallAnswered]
  cases hd : decodedToken e with
  | none => rfl
  | some cs =>
    rw [fallsThrough, hd] at h
    simp only [Bool.and_eq_true, bne_iff_ne, ne_eq] at h
    simp only [if_neg h.1.1, if_neg h.1.2, if_neg h.2]

theorem inboundAnsweredFlow_pendings (env : Env) (ccid : String)
    (pi : PendingInfo) (s : ServerState) :
    (inboundAnsweredFlow env ccid pi s).1.pendingCalls = s.pendingCalls ∧
    (inboundAnsweredFlow env ccid pi s).1.pendingOutboundCalls =
      s.pendingOutboundCalls := by
  rw [inboundAnsweredFlow]
  cases env.createConferenceResult <;> exact ⟨by first | rfl | trivial, by first | rfl | trivial⟩

theorem inboundAnsweredFlow_count (env : Env) (ccid : String) (pi : PendingInfo)
    (s : ServerState) :
    countCreateConfFor (inboundAnsweredFlow env ccid pi s).2 ccid = 1 := by
  rw [inboundAnsweredFlow]
  cases env.createConferenceResult <;>
    simp [countCreateConfFor, List.filter]

theorem outboundFallbackFlow_pendings (env : Env) (ccid : String)
    (po : OutboundInfo) (s : ServerState) :
    (outboundFallbackFlow env ccid po s).1.pendingCalls = s.pendingCalls ∧
    (outboundFallbackFlow env ccid po s).1.pendingOutboundCalls =
      s.pendingOutboundCalls := by
  rw [outboundFallbackFlow]
  cases env.createConferenceResult with
  | none => exact ⟨by first | rfl | trivial, by first | rfl | trivial⟩
  | some confId =>
    by_cases hd : env.dialResult.isSome
    · simp only [if_pos hd]
      by_cases ht : env.startTranscriptionResult
      · simp only [if_pos ht]; exact ⟨by first | rfl | trivial, by first | rfl | trivial⟩
      · simp only [if_neg ht]; exact ⟨by first | rfl | trivial, by first | rfl | trivial⟩
    · simp only [if_neg hd]; exact ⟨by first | rfl | trivial, by first | rfl | trivial⟩

theorem outboundFallbackFlow_count (env : Env) (ccid : String)
    (po : OutboundInfo) (s : ServerState) :
    countCreateConfFor (outboundFallbackFlow env ccid po s).2 ccid = 1 := by
  rw [outboundFallbackFlow]
  cases env.createConferenceResult with
  | none => simp [countCreateConfFor, List.filter]
  | some confId =>
    by_cases hd : env.dialResult.isSome
    · simp only [if_pos hd]
      by_cases ht : env.startTranscriptionResult
      · simp only [if_pos ht]; simp [countCreateConfFor, List.filter]
      · simp only [if_neg ht]; simp [countCreateConfFor, List.filter]
    · simp only [if_neg hd]; simp [countCreateConfFor, List.filter]


theorem aiLegFlow_actions (env : Env) (ccid : String)
    (cs : List (List Char × List Char)) (s : ServerState) :
    (aiLegFlow env ccid cs s).2 =
      [Action.joinConference (strField cs "conferenceId".toList) ccid] := by
  rw [aiLegFlow]
  by_cases hj : env.joinResult
  · simp only [if_pos hj]
    by_cases ha : s.activeConferences.any
        (fun p => p.2.conferenceId == strField cs "conferenceId".toList)
    · simp only [if_pos ha]
    · simp only [if_neg ha]
  · simp only [if_neg hj]

theorem aiLegFlow_idem (env : Env) (ccid : String)
    (cs : List (List Char × List Char)) (s : ServerState) :
    aiLegFlow env ccid cs (aiLegFlow env ccid cs s).1 = aiLegFlow env ccid cs s := by
  by_cases hj : env.joinResult
  · by_cases ha : s.activeConferences.any
        (fun p => p.2.conferenceId == strField cs "conferenceId".toList)
    · have hany := any_updateFirst s.activeConferences
        (fun p => p.2.conferenceId == strField cs "conferenceId".toList)
        (fun p => (p.1, { p.2 with aiCallControlId := some ccid, aiConnected := true }))
        (fun _ => rfl)
      have hidem1 := updateFirst_idem s.activeConferences
        (fun p => p.2.conferenceId == strField cs "conferenceId".toList)
        (fun p => (p.1, { p.2 with aiCallControlId := some ccid, aiConnected := true }))
        (fun _ => rfl) (fun _ => rfl)
      have hidem2 := updateFirst_idem s.callHistory
        (fun h => h.conferenceId == some (strField cs "conferenceId".toList))
        (fun h => { h with aiCallControlId := some ccid, status := "connected" })
        (fun _ => rfl) (fun _ => rfl)
      have hfst : (aiLegFlow env ccid cs s).1 = { s with
          activeConferences := updateFirst
            (fun p => p.2.conferenceId == strField cs "conferenceId".toList)
            (fun p => (p.1,
              { p.2 with aiCallControlId := some ccid, aiConnected := true }))
            s.activeConferences,
          callHistory := updateFirst
            (fun h => h.conferenceId == some (strField cs "conferenceId".toList))
            (fun h => { h with aiCallControlId := some ccid, status := "connected" })
            s.callHistory } := by
        rw [aiLegFlow]
        simp only [if_pos hj, if_pos ha]
      rw [hfst, aiLegFlow, aiLegFlow]
      dsimp only
      simp only [if_pos hj, if_pos ha, if_pos (hany.trans ha), hidem1, hidem2]
    · have hfst : (aiLegFlow env ccid cs s).1 = s := by
        rw [aiLegFlow]; simp only [if_pos hj, if_neg ha]
      rw [hfst]
  · have hfst : (aiLegFlow env ccid cs s).1 = s := by
      rw [aiLegFlow]; simp only [if_neg hj]
    rw [hfst]


theorem handleCallAnswered_aiLeg (env : Env) (e : AnsweredPayload)
    (s : ServerState) (cs : List (List Char × List Char))
    (hd : decodedToken e = some cs) (ht : getField cs typeKey = some aiLegLit) :
    handleCallAnswered env e s = aiLegFlow env e.call_control_id cs s := by
  simp only [handleCallAnswered, hd, if_pos ht]

theorem idFallbackFlow_outbound (env : Env) (ccid : String) (s : ServerState)
    (po : OutboundInfo) (h : mapGet s.pendingOutboundCalls ccid = some po) :
    idFallbackFlow env ccid s = outboundFallbackFlow env ccid po
      { s with pendingOutboundCalls := mapDelete s.pendingOutboundCalls ccid } := by
  simp only [idFallbackFlow, h]

theorem idFallbackFlow_pending (env : Env) (ccid : String) (s : ServerState)
    (pi : PendingInfo) (h1 : mapGet s.pendingOutboundCalls ccid = none)
    (h2 : mapGet s.pendingCalls ccid = some pi) :
    idFallbackFlow env ccid s = inboundAnsweredFlow env ccid pi
      { s with pendingCalls := mapDelete s.pendingCalls ccid } := by
  simp only [idFallbackFlow, h1, h2]

theorem idFallbackFlow_none (env : Env) (ccid : String) (s : ServerState)
    (h1 : mapGet s.pendingOutboundCalls ccid = none)
    (h2 : mapGet s.pendingCalls ccid = none) :
    idFallbackFlow env ccid s = (s, []) := by
  simp only [idFallbackFlow, h1, h2]

theorem countJoinFor_single (cf c : String) :
    countJoinFor [Action.joinConference cf c] cf c = 1 := by
  simp [countJoinFor, List.filter]

theorem countCreateConfFor_nil (c : String) : countCreateConfFor [] c = 0 := rfl



/-! ## Claim theorems -/

/-- C1: for a leg id with a Pending Call, an `answered` event that reaches
id-based correlation consumes the Pending Call unconditionally (before and
regardless of any remote-call outcome, hence before any remote call is
issued), so a second delivery of the same event finds no Pending Call and
creates no second conference: across both deliveries at most one
`createConference` call is issued for that leg id. -/
theorem c1_answered_consumes_pending_once (env1 env2 : Env)
    (e : AnsweredPayload) (s : ServerState) (pi : PendingInfo)
    (hft : fallsThrough e = true)
    (hout : mapGet s.pendingOutboundCalls e.call_control_id = none)
    (hpend : mapGet s.pendingCalls e.call_control_id = some pi) :
    mapGet (handleCallAnswered env1 e s).1.pendingCalls e.call_control_id = none ∧
    countCreateConfFor ((handleCallAnswered env1 e s).2 ++
        (handleCallAnswered env2 e (handleCallAnswered env1 e s).1).2)
      e.call_control_id ≤ 1 := by
  have h1 : handleCallAnswered env1 e s = inboundAnsweredFlow env1
      e.call_control_id pi
      { s with pendingCalls := mapDelete s.pendingCalls e.call_control_id } := by
    rw [handleCallAnswered_fallsThrough _ _ _ hft,
      idFallbackFlow_pending _ _ _ _ hout hpend]
  have hpc : (handleCallAnswered env1 e s).1.pendingCalls =
      mapDelete s.pendingCalls e.call_control_id := by
    rw [h1, (inboundAnsweredFlow_pendings _ _ _ _).1]
  have hpo : (handleCallAnswered env1 e s).1.pendingOutboundCalls =
      s.pendingOutboundCalls := by
    rw [h1, (inboundAnsweredFlow_pendings _ _ _ _).2]
  have hnone : mapGet (handleCallAnswered env1 e s).1.pendingCalls
      e.call_control_id = none := by
    rw [hpc, mapGet_mapDelete_self]
  have h2 : handleCallAnswered env2 e (handleCallAnswered env1 e s).1 =
      ((handleCallAnswered env1 e s).1, []) := by
    rw [handleCallAnswered_fallsThrough _ _ _ hft]
    exact idFallbackFlow_none _ _ _ (by rw [hpo]; exact hout) hnone
  have hc1 : countCreateConfFor (handleCallAnswered env1 e s).2
      e.call_control_id = 1 := by
    rw [h1, inboundAnsweredFlow_count]
  have hc2 : countCreateConfFor
      (handleCallAnswered env2 e (handleCallAnswered env1 e s).1).2
      e.call_control_id = 0 := by
    rw [h2]
    rfl
  refine ⟨hnone, ?_⟩
  rw [countCreateConfFor_append, hc1, hc2]

theorem c1_witness :
    (fallsThrough c1Event = true ∧
      mapGet c1State.pendingOutboundCalls c1Event.call_control_id = none ∧
      mapGet c1State.pendingCalls c1Event.call_control_id =
        some ⟨"+15551112222", "+18635008639", "Executive Assistant", 1000⟩) ∧
    (mapGet (handleCallAnswered c1Env c1Event c1State).1.pendingCalls
        c1Event.call_control_id = none ∧
      countCreateConfFor ((handleCallAnswered c1Env c1Event c1State).2 ++
          (handleCallAnswered c1Env c1Event
            (handleCallAnswered c1Env c1Event c1State).1).2)
        c1Event.call_control_id ≤ 1) :=
  ⟨⟨by decide, by decide, by decide⟩,
    c1_answered_consumes_pending_once c1Env c1Env c1Event c1State
      ⟨"+15551112222", "+18635008639", "Executive Assistant", 1000⟩
      (by decide) (by decide) (by decide)⟩

/-- C2 counterexample: delivering the same AI-leg `answered` event twice
issues two `joinConference("C1", "L2")` calls, not at most one. -/
theorem c2_counterexample :
    countJoinFor ((handleCallAnswered c2Env c2Event c2State).2 ++
        (handleCallAnswered c2Env c2Event
          (handleCallAnswered c2Env c2Event c2State).1).2) "C1" "L2" = 2 := by
  decide

/-- C2 (amended): an `answered` event carrying an `ai_leg` token naming
conference C issues exactly one `joinConference(C, L)` call on every
delivery — so two deliveries issue two identical join calls, not one — while
the second delivery leaves the server state (in particular the
conference-membership table `activeConferences`) unchanged, because the
membership writes are idempotent in value. -/
theorem c2_ai_leg_redelivery (env : Env) (e : AnsweredPayload)
    (s : ServerState) (cs : List (List Char × List Char))
    (hd : decodedToken e = some cs)
    (ht : getField cs typeKey = some aiLegLit) :
    countJoinFor (handleCallAnswered env e s).2
        (strField cs "conferenceId".toList) e.call_control_id = 1 ∧
    (handleCallAnswered env e (handleCallAnswered env e s).1).1 =
      (handleCallAnswered env e s).1 ∧
    (handleCallAnswered env e (handleCallAnswered env e s).1).2 =
      (handleCallAnswered env e s).2 := by
  have h1 := handleCallAnswered_aiLeg env e s cs hd ht
  have h2 := handleCallAnswered_aiLeg env e (handleCallAnswered env e s).1 cs hd ht
  have hidem := aiLegFlow_idem env e.call_control_id cs s
  refine ⟨?_, ?_, ?_⟩
  · rw [h1, aiLegFlow_actions, countJoinFor_single]
  · rw [h2, h1, hidem]
  · rw [h2, h1, aiLegFlow_actions, aiLegFlow_actions]

theorem c2_witness :
    (decodedToken c2Event = some c2Pairs ∧
      getField c2Pairs typeKey = some aiLegLit) ∧
    (countJoinFor (handleCallAnswered c2Env c2Event c2State).2
        (strField c2Pairs "conferenceId".toList) c2Event.call_control_id = 1 ∧
      (handleCallAnswered c2Env c2Event
          (handleCallAnswered c2Env c2Event c2State).1).1 =
        (handleCallAnswered c2Env c2Event c2State).1 ∧
      (handleCallAnswered c2Env c2Event
          (handleCallAnswered c2Env c2Event c2State).1).2 =
        (handleCallAnswered c2Env c2Event c2State).2) :=
  ⟨⟨by decide, by decide⟩,
    c2_ai_leg_redelivery c2Env c2Event c2State c2Pairs (by decide) (by decide)⟩

/-- C3 counterexample: for a token-less `answered` event whose leg matches
both a Pending Call and a tracked outbound attempt, the handler runs the
outbound fallback, leaving the Pending Call unconsumed — the inbound flow
claimed by priority (b) did not run. -/
theorem c3_counterexample :
    mapGet (handleCallAnswered c3Env c3Event c3State).1.pendingCalls "L9" =
      some c3Pending ∧
    mapGet (handleCallAnswered c3Env c3Event c3State).1.pendingOutboundCalls
      "L9" = none := by
  decide

/-- C3 (amended): dispatch priority for `answered` events is (a) a decodable
token of recognized kind, (b) otherwise the tracked-outbound fallback, and
only (c) absent both, the Pending Call inbound flow — the source checks
`pendingOutboundCalls` before `pendingCalls`, the reverse of the claimed
order; an event matching none of the three leaves the state unchanged and
issues no remote call. -/
theorem c3_dispatch_priority (env : Env) (e : AnsweredPayload)
    (s : ServerState) (hft : fallsThrough e = true) :
    (∀ po, mapGet s.pendingOutboundCalls e.call_control_id = some po →
      mapGet (handleCallAnswered env e s).1.pendingOutboundCalls
        e.call_control_id = none ∧
      (handleCallAnswered env e s).1.pendingCalls = s.pendingCalls ∧
      countCreateConfFor (handleCallAnswered env e s).2 e.call_control_id = 1) ∧
    (∀ pi, mapGet s.pendingOutboundCalls e.call_control_id = none →
      mapGet s.pendingCalls e.call_control_id = some pi →
      mapGet (handleCallAnswered env e s).1.pendingCalls
        e.call_control_id = none ∧
      countCreateConfFor (handleCallAnswered env e s).2 e.call_control_id = 1) ∧
    (mapGet s.pendingOutboundCalls e.call_control_id = none →
      mapGet s.pendingCalls e.call_control_id = none →
      handleCallAnswered env e s = (s, [])) := by
  refine ⟨?_, ?_, ?_⟩
  · intro po hpo
    have h1 : handleCallAnswered env e s = outboundFallbackFlow env
        e.call_control_id po
        { s with pendingOutboundCalls :=
            mapDelete s.pendingOutboundCalls e.call_control_id } := by
      rw [handleCallAnswered_fallsThrough _ _ _ hft,
        idFallbackFlow_outbound _ _ _ _ hpo]
    refine ⟨?_, ?_, ?_⟩
    · rw [h1, (outboundFallbackFlow_pendings _ _ _ _).2, mapGet_mapDelete_self]
    · rw [h1, (outboundFallbackFlow_pendings _ _ _ _).1]
    · rw [h1, outboundFallbackFlow_count]
  · intro pi hpo hpend
    have h1 : handleCallAnswered env e s = inboundAnsweredFlow env
        e.call_control_id pi
        { s with pendingCalls := mapDelete s.pendingCalls e.call_control_id } := by
      rw [handleCallAnswered_fallsThrough _ _ _ hft,
        idFallbackFlow_pending _ _ _ _ hpo hpend]
    refine ⟨?_, ?_⟩
    · rw [h1, (inboundAnsweredFlow_pendings _ _ _ _).1, mapGet_mapDelete_self]
    · rw [h1, inboundAnsweredFlow_count]
  · intro hpo hpend
    rw [handleCallAnswered_fallsThrough _ _ _ hft,
      idFallbackFlow_none _ _ _ hpo hpend]

theorem c3_witness :
    fallsThrough c3Event = true ∧
    (mapGet (handleCallAnswered c3Env c3Event c3State).1.pendingOutboundCalls
        c3Event.call_control_id = none ∧
      (handleCallAnswered c3Env c3Event c3State).1.pendingCalls =
        c3State.pendingCalls ∧
      countCreateConfFor (handleCallAnswered c3Env c3Event c3State).2
        c3Event.call_control_id = 1) :=
  ⟨by decide,
    (c3_dispatch_priority c3Env c3Event c3State (by decide)).1 c3Outbound
      (by decide)⟩

/-- C4: on `hangup`, a conference anchored on the hung-up leg is deleted
entirely, while a conference whose AI participant is the hung-up leg
survives with only its AI slot cleared (`aiCallControlId := none`,
`aiConnected := false`). -/
theorem c4_hangup_anchor_delete_ai_clear (env : Env) (p : HangupPayload)
    (s : ServerState) :
    ((mapGet s.activeConferences p.call_control_id).isSome →
      mapGet (handleCallHangup env p s).1.activeConferences
        p.call_control_id = none) ∧
    (∀ k cd, ¬ k = p.call_control_id →
      mapGet s.activeConferences k = some cd →
      cd.aiCallControlId = some p.call_control_id →
      mapGet (handleCallHangup env p s).1.activeConferences k =
        some { cd with aiCallControlId := none, aiConnected := false }) := by
  have hconf : (handleCallHangup env p s).1.activeConferences =
      clearAiLegs (mapDelete s.activeConferences p.call_control_id)
        p.call_control_id := rfl
  refine ⟨?_, ?_⟩
  · intro _
    rw [hconf, mapGet_clearAiLegs, mapGet_mapDelete_self]
    rfl
  · intro k cd hk hget hai
    rw [hconf, mapGet_clearAiLegs, mapGet_mapDelete_ne _ _ _ hk, hget,
      Option.map_some']
    rw [if_pos (by rw [hai]; exact beq_self_eq_true _)]

theorem c4_witness :
    ((mapGet c4State.activeConferences c4Event.call_control_id).isSome ∧
      mapGet (handleCallHangup c4Env c4Event c4State).1.activeConferences
        c4Event.call_control_id = none) ∧
    (¬ "K2" = c4Event.call_control_id ∧
      mapGet c4State.activeConferences "K2" = some c4ConfAi ∧
      c4ConfAi.aiCallControlId = some c4Event.call_control_id ∧
      mapGet (handleCallHangup c4Env c4Event c4State).1.activeConferences "K2" =
        some { c4ConfAi with aiCallControlId := none, aiConnected := false }) :=
  ⟨⟨by decide,
      (c4_hangup_anchor_delete_ai_clear c4Env c4Event c4State).1 (by decide)⟩,
    ⟨by decide, by decide, by decide,
      (c4_hangup_anchor_delete_ai_clear c4Env c4Event c4State).2 "K2" c4ConfAi
        (by decide) (by decide) (by decide)⟩⟩

/-- C5 counterexample: an Expected Callback entry created at time 0 is
still reachable (and is consumed, creating a conference) by an `answered`
event processed 1000 seconds later, far past the claimed 60-second TTL. -/
theorem c5_counterexample :
    countCreateConfFor (handleCallAnswered c5Env c5Event c5State).2 "L9" = 1 ∧
    mapGet (handleCallAnswered c5Env c5Event c5State).1.pendingOutboundCalls
      "L9" = none := by
  decide

/-- C5 (amended): Expected Callback (`pendingOutboundCalls`) entries are
never expired — the source has no periodic sweep and no TTL check — so an
entry of any age remains reachable by a later token-less `answered` event,
which consumes it and triggers the outbound fallback flow regardless of the
entry's timestamp or the current clock. -/
theorem c5_no_ttl_sweep (env : Env) (e : AnsweredPayload) (s : ServerState)
    (po : OutboundInfo) (hft : fallsThrough e = true)
    (hout : mapGet s.pendingOutboundCalls e.call_control_id = some po) :
    countCreateConfFor (handleCallAnswered env e s).2 e.call_control_id = 1 ∧
    mapGet (handleCallAnswered env e s).1.pendingOutboundCalls
      e.call_control_id = none := by
  have h1 : handleCallAnswered env e s = outboundFallbackFlow env
      e.call_control_id po
      { s with pendingOutboundCalls :=
          mapDelete s.pendingOutboundCalls e.call_control_id } := by
    rw [handleCallAnswered_fallsThrough _ _ _ hft,
      idFallbackFlow_outbound _ _ _ _ hout]
  refine ⟨?_, ?_⟩
  · rw [h1, outboundFallbackFlow_count]
  · rw [h1, (outboundFallbackFlow_pendings _ _ _ _).2, mapGet_mapDelete_self]

theorem c5_witness :
    (fallsThrough c5Event = true ∧
      mapGet c5State.pendingOutboundCalls c5Event.call_control_id =
        some c5Outbound) ∧
    (countCreateConfFor (handleCallAnswered c5Env c5Event c5State).2
        c5Event.call_control_id = 1 ∧
      mapGet (handleCallAnswered c5Env c5Event c5State).1.pendingOutboundCalls
        c5Event.call_control_id = none) :=
  ⟨⟨by decide, by decide⟩,
    c5_no_ttl_sweep c5Env c5Event c5State c5Outbound (by decide) (by decide)⟩

/-- C6: when an inbound `initiated` event for an agent number is answered
unsuccessfully, the handler deletes the Pending Call it just created and
issues no further remote call: the action trace is exactly the one `answer`
attempt and `pendingCalls` holds no entry for the leg. -/
theorem c6_initiated_answer_failure_rollback (env : Env) (p : InitiatedPayload)
    (s : ServerState) (agentName : String)
    (hcc : ¬ p.call_control_id = "")
    (hdir : p.direction = "inbound" ∨ p.direction = "incoming")
    (hagent : mapGet AGENT_PHONE_NUMBERS p.toNum = some agentName)
    (hfail : env.answerResult = false) :
    mapGet (handleCallInitiated env p s).1.pendingCalls p.call_control_id =
      none ∧
    (handleCallInitiated env p s).2 = [Action.answer p.call_control_id] := by
  have hnotout : ¬ (p.direction = "outgoing" ∧ ¬ p.fromNum = "") := by
    rintro ⟨hout, -⟩
    rcases hdir with h | h <;> rw [h] at hout <;> exact absurd hout (by decide)
  have hin : ¬ (¬ p.direction = "inbound" ∧ ¬ p.direction = "incoming") := by
    rintro ⟨h1, h2⟩
    rcases hdir with h | h
    · exact h1 h
    · exact h2 h
  have hb : ¬ (env.answerResult = true) := by rw [hfail]; decide
  rw [handleCallInitiated]
  simp only [if_neg hcc, if_neg hnotout, if_neg hin, hagent, if_neg hb]
  exact ⟨mapGet_mapDelete_self _ _, trivial⟩

theorem c6_witness :
    (¬ c6Payload.call_control_id = "" ∧
      (c6Payload.direction = "inbound" ∨ c6Payload.direction = "incoming") ∧
      mapGet AGENT_PHONE_NUMBERS c6Payload.toNum =
        some "Executive Assistant" ∧
      c6Env.answerResult = false) ∧
    (mapGet (handleCallInitiated c6Env c6Payload {}).1.pendingCalls
        c6Payload.call_control_id = none ∧
      (handleCallInitiated c6Env c6Payload {}).2 =
        [Action.answer c6Payload.call_control_id]) :=
  ⟨⟨by decide, Or.inl (by decide), by decide, by decide⟩,
    c6_initiated_answer_failure_rollback c6Env c6Payload {}
      "Executive Assistant" (by decide) (Or.inl (by decide)) (by decide)
      (by decide)⟩

/-- C7: an `answered` event whose `client_state` is absent, empty, not valid
base64-encoded JSON, or of an unrecognized kind is handled exactly like the
same event with no token at all — decoding failure never throws (the handler
is a total function) and the handler falls through to id-based
correlation. -/
theorem c7_malformed_token_fallthrough (env : Env) (e : AnsweredPayload)
    (s : ServerState) (hft : fallsThrough e = true) :
    handleCallAnswered env e s =
      handleCallAnswered env { e with client_state := none } s := by
  rw [handleCallAnswered_fallsThrough _ _ _ hft,
    handleCallAnswered_fallsThrough _ { e with client_state := none } _ rfl]

theorem c7_witness :
    fallsThrough c7Event = true ∧
    handleCallAnswered c1Env c7Event c1State =
      handleCallAnswered c1Env { c7Event with client_state := none } c1State :=
  ⟨by decide, c7_malformed_token_fallthrough c1Env c7Event c1State (by decide)⟩

/-- C8: the Client-State Codec round-trips — encoding the structured record
`{type := "ai_leg", conferenceId, callerFrom}` as `dialElevenLabsSIP` does
(JSON serialisation, then base64 over the UTF-8 bytes) and decoding the
resulting opaque string as `handleCallAnswered` does (base64 decode, then
JSON parse) yields the original record, for every pair of strings. -/
theorem c8_client_state_roundtrip (conferenceId callerFrom : List Char) :
    decodeClientState (encodeClientState conferenceId callerFrom) =
      some [("type".toList, "ai_leg".toList),
        ("conferenceId".toList, conferenceId),
        ("callerFrom".toList, callerFrom)] := by
  rw [encodeClientState, decodeClientState,
    base64_roundtrip _ (utf8Encode_lt _), Option.some_bind, utf8_roundtrip,
    Option.some_bind, parseStateObject_encode]

theorem boundedPush_length_le (ts : List TranscriptEntry)
    (e : TranscriptEntry) (h : ts.length ≤ 500) :
    (boundedPush ts e).length ≤ 500 := by
  simp only [boundedPush]
  by_cases hlen : (ts ++ [e]).length > 500
  · rw [if_pos hlen]
    simp only [List.length_drop, List.length_append, List.length_cons,
      List.length_nil]
    omega
  · rw [if_neg hlen]
    simp only [List.length_append, List.length_cons, List.length_nil] at hlen ⊢
    omega

/-- C9: a `transcription` event appends to the per-conference buffer only
when `is_final` is true (non-final events never change the buffer's
contents), the appended entry carries the event's text, and the buffer
length stays bounded by 500 with the oldest entry shifted out when the
bound would be exceeded. -/
theorem c9_transcription_final_append_bounded (env : Env)
    (p : TranscriptionPayload) (s : ServerState) :
    (p.is_final = false →
      (mapGet (handleTranscription env p s).1.liveTranscripts
          p.conference_id).getD [] =
        (mapGet s.liveTranscripts p.conference_id).getD []) ∧
    (p.is_final = true → ¬ p.conference_id = "" → ¬ p.transcript = "" →
      ∃ entry : TranscriptEntry, entry.text = p.transcript ∧
        entry.isFinal = true ∧
        (mapGet (handleTranscription env p s).1.liveTranscripts
            p.conference_id).getD [] =
          boundedPush ((mapGet s.liveTranscripts p.conference_id).getD [])
            entry) ∧
    (((mapGet s.liveTranscripts p.conference_id).getD []).length ≤ 500 →
      ((mapGet (handleTranscription env p s).1.liveTranscripts
          p.conference_id).getD []).length ≤ 500) := by
  by_cases hguard : p.conference_id = "" ∨ p.transcript = ""
  · have hres : handleTranscription env p s = (s, []) := by
      rw [handleTranscription, if_pos hguard]
    refine ⟨fun _ => by rw [hres], fun _ hc ht => ?_,
      fun hb => by rw [hres]; exact hb⟩
    rcases hguard with h | h
    · exact absurd h hc
    · exact absurd h ht
  · have hm0 : (mapGet (if mapHas s.liveTranscripts p.conference_id then
        s.liveTranscripts
      else mapSet s.liveTranscripts p.conference_id []) p.conference_id).getD [] =
        (mapGet s.liveTranscripts p.conference_id).getD [] := by
      by_cases hh : mapHas s.liveTranscripts p.conference_id
      · rw [if_pos hh]
      · rw [if_neg hh, mapGet_mapSet_self]
        rw [mapHas] at hh
        cases hg : mapGet s.liveTranscripts p.conference_id with
        | none => rfl
        | some ts => rw [hg] at hh; exact absurd rfl hh
    by_cases hf : p.is_final
    · have hget : (mapGet (handleTranscription env p s).1.liveTranscripts
          p.conference_id).getD [] =
          boundedPush ((mapGet s.liveTranscripts p.conference_id).getD [])
            ⟨"tr_" ++ toString env.now, env.now,
              speakerFor s.activeConferences p.conference_id p.call_control_id,
              p.transcript, p.is_final, p.call_control_id⟩ := by
        have hres : (handleTranscription env p s).1.liveTranscripts =
            mapSet (if mapHas s.liveTranscripts p.conference_id then
                s.liveTranscripts
              else mapSet s.liveTranscripts p.conference_id [])
              p.conference_id
              (boundedPush ((mapGet (if mapHas s.liveTranscripts
                  p.conference_id then s.liveTranscripts
                else mapSet s.liveTranscripts p.conference_id [])
                  p.conference_id).getD [])
                ⟨"tr_" ++ toString env.now, env.now,
                  speakerFor s.activeConferences p.conference_id
                    p.call_control_id,
                  p.transcript, p.is_final, p.call_control_id⟩) := by
          rw [handleTranscription, if_neg hguard]
          simp only [if_pos hf]
        rw [hres, mapGet_mapSet_self, Option.getD_some, hm0]
      refine ⟨fun hnf => absurd hf (by rw [hnf]; exact Bool.noConfusion),
        fun _ hc ht => ?_, fun hb => ?_⟩
      · exact ⟨⟨"tr_" ++ toString env.now, env.now,
          speakerFor s.activeConferences p.conference_id p.call_control_id,
          p.transcript, p.is_final, p.call_control_id⟩, rfl, hf, hget⟩
      · rw [hget]
        exact boundedPush_length_le _ _ hb
    · have hres : (handleTranscription env p s).1.liveTranscripts =
          (if mapHas s.liveTranscripts p.conference_id then s.liveTranscripts
           else mapSet s.liveTranscripts p.conference_id []) := by
        rw [handleTranscription, if_neg hguard]
        simp only [if_neg hf]
      refine ⟨fun _ => by rw [hres, hm0], fun hfin => absurd hfin hf,
        fun hb => by rw [hres, hm0]; exact hb⟩

theorem c9_witness :
    c9Payload.is_final = true ∧ ¬ c9Payload.conference_id = "" ∧
    ¬ c9Payload.transcript = "" ∧
    (∃ entry : TranscriptEntry, entry.text = c9Payload.transcript ∧
      entry.isFinal = true ∧
      (mapGet (handleTranscription c9Env c9Payload {}).1.liveTranscripts
          c9Payload.conference_id).getD [] =
        boundedPush ((mapGet ({} : ServerState).liveTranscripts
          c9Payload.conference_id).getD []) entry) :=
  ⟨by decide, by decide, by decide,
    ((c9_transcription_final_append_bounded c9Env c9Payload {}).2.1
      (by decide) (by decide) (by decide))⟩

/-- C10: a `hangup` for a leg whose matching call-history entry already has
a terminal time set leaves the whole call history — in particular that
entry's `endTime`, `status` and `duration` — unchanged. -/
theorem c10_duplicate_hangup_history_unchanged (env : Env) (p : HangupPayload)
    (s : ServerState) (h0 : HistoryEntry) (t : Nat)
    (hfind : s.callHistory.find? (hangupHistPred p.call_control_id) = some h0)
    (hend : h0.endTime = some t) :
    (handleCallHangup env p s).1.callHistory = s.callHistory := by
  have hres : (handleCallHangup env p s).1.callHistory =
      updateCallHistoryOnHangup s.callHistory p.call_control_id env.now := rfl
  rw [hres]
  simp only [updateCallHistoryOnHangup, hfind, hend, Option.isNone_some,
    Bool.false_eq_true, if_false]

theorem c10_witness :
    (c10State.callHistory.find? (hangupHistPred c10Event.call_control_id) =
        some c10Entry ∧ c10Entry.endTime = some 5000) ∧
    (handleCallHangup c10Env c10Event c10State).1.callHistory =
      c10State.callHistory :=
  ⟨⟨by decide, by decide⟩,
    c10_duplicate_hangup_history_unchanged c10Env c10Event c10State c10Entry
      5000 (by decide) (by decide)⟩
end PersonalAgentWebhook
